import Mathlib

/-!
Shallow embedding of `src/license_server.py` (a Flask license server).

The server keeps a JSON object mapping license keys to license records.
Each request handler loads the whole database (`load_db`), applies its
policy, optionally writes the whole database back (`save_db`), and
returns a JSON response.  We model:

* the database as an association list `Db` (a JSON object: one record
  per key);
* the injectable clock as an explicit `today : Date` argument
  (the Python code calls `datetime.date.today()`);
* `datetime.datetime.strptime(s, "%Y-%m-%d")` as `parseDate`, which
  fails (`none`) exactly when CPython's strptime raises `ValueError`;
* an unhandled Python exception as a `none` outcome (the `Option` in
  each handler's result);
* the possibility that the file write in `save_db` fails as a Boolean
  `writeOk` in the `*Step` wrappers — `save_db` catches every exception
  and only prints it, so the handler's response never depends on
  `writeOk`, only the persisted state does;
* the random block generator of `generate_license_key` by passing the
  randomly chosen blocks as an explicit argument.

Fields read with `record.get(field, default)` in Python may be absent
from the stored JSON, so they are modelled as `Option` fields
(`max_activations`, `product`, `version`).  `customer` and `expiry` are
modelled as plain strings: every handler path reads them with mandatory
`record[...]` access and `create_license` validates both, so a record
missing them is uniformly unusable; `activated_hwids` is read with
default `[]` everywhere and written back on every mutation, so an
absent list is observationally the empty list and is modelled as
`List String`.
-/

/-- A calendar date, the result of `datetime.datetime.strptime(s, "%Y-%m-%d").date()`. -/
structure Date where
  year : Nat
  month : Nat
  day : Nat
deriving DecidableEq, Repr

/-- Python `date` comparison `a < b`: lexicographic on (year, month, day). -/
def dateLt (a b : Date) : Bool :=
  a.year < b.year ∨ (a.year = b.year ∧ (a.month < b.month ∨ (a.month = b.month ∧ a.day < b.day)))

/-- Split a character list at every `'-'` (the separators of the `%Y-%m-%d` format). -/
def splitDash : List Char → List (List Char)
  | [] => [[]]
  | c :: t =>
    match splitDash t with
    | [] => [[]]
    | g :: gs => if c = '-' then [] :: g :: gs else (c :: g) :: gs

/-- Decimal value of a digit string. -/
def digitsToNat (cs : List Char) : Nat :=
  cs.foldl (fun n c => n * 10 + (c.toNat - 48)) 0

/-- Gregorian leap-year rule used by `datetime`. -/
def isLeap (y : Nat) : Bool :=
  y % 4 = 0 ∧ (¬ y % 100 = 0 ∨ y % 400 = 0)

/-- Number of days in a month, as validated by the `datetime` constructor. -/
def daysInMonth (y m : Nat) : Nat :=
  if m = 2 then (if isLeap y then 29 else 28)
  else if m = 4 ∨ m = 6 ∨ m = 9 ∨ m = 11 then 30
  else 31

/-- `datetime.datetime.strptime(s, "%Y-%m-%d").date()`.

CPython's `_strptime` compiles `%Y-%m-%d` to the regex
`(?P<Y>\d\d\d\d)-(?P<m>1[0-2]|0[1-9]|[1-9])-(?P<d>3[01]|[12]\d|0[1-9]|[1-9])`
anchored at both ends, then the `datetime` constructor checks
`MINYEAR <= year` and `day <= days_in_month(year, month)`.  `strptime`
raises `ValueError` (modelled as `none`) on any string not of that
shape. -/
def parseDate (s : String) : Option Date :=
  match splitDash s.toList with
  | [ys, ms, ds] =>
    if ys.length = 4 ∧ (∀ c ∈ ys, c.isDigit) ∧
       1 ≤ ms.length ∧ ms.length ≤ 2 ∧ (∀ c ∈ ms, c.isDigit) ∧
       1 ≤ ds.length ∧ ds.length ≤ 2 ∧ (∀ c ∈ ds, c.isDigit) then
      let y := digitsToNat ys
      let m := digitsToNat ms
      let d := digitsToNat ds
      if 1 ≤ y ∧ 1 ≤ m ∧ m ≤ 12 ∧ 1 ≤ d ∧ d ≤ daysInMonth y m then
        some ⟨y, m, d⟩
      else none
    else none
  | _ => none

/-- One license record: the JSON object stored under a license key.

`max_activations`, `product` and `version` are read in the source with
`record.get(field, default)`, so they may be absent (`none`). -/
structure LicenseRecord where
  customer : String
  expiry : String
  max_activations : Option Nat
  activated_hwids : List String
  product : Option String
  version : Option String
deriving DecidableEq, Repr

/-- The license database: the JSON object in `licenses.json`, one record per key. -/
abbrev Db := List (String × LicenseRecord)

/-- Python `db[license_key]` / `license_key in db`: first (unique) binding of the key. -/
def dbGet (k : String) : Db → Option LicenseRecord
  | [] => none
  | (k', r) :: t => if k' = k then some r else dbGet k t

/-- Python `db[license_key] = record`: replace the binding if present, else append. -/
def dbPut (k : String) (r : LicenseRecord) : Db → Db
  | [] => [(k, r)]
  | (k', r') :: t => if k' = k then (k, r) :: t else (k', r') :: dbPut k r t

/-- Python `del db[license_key]`: remove every binding of the key. -/
def dbDelete (k : String) : Db → Db
  | [] => []
  | (k', r) :: t => if k' = k then dbDelete k t else (k', r) :: dbDelete k t

/-- Outcome of the `/activate` handler.  `activated` and `alreadyActive`
produce the identical HTTP 200 payload in the source (the handler falls
through to the same `jsonify` call); they are distinguished here by
whether the mutation branch ran. -/
inductive ActivateResult where
  | invalidInput
  | notFound
  | expired
  | limitReached
  | alreadyActive (expiry customer : String)
  | activated (expiry customer : String)
deriving DecidableEq, Repr

/-- The `/activate` handler (`activate`, lines 40–76).  Result `none`
models an unhandled Python exception (here: `strptime` raising
`ValueError` on a malformed `expiry`).  The returned `Db` is the state
the handler passes to `save_db` (unchanged when no mutation happened). -/
def activate (today : Date) (db : Db) (license_key hwid : String) :
    Option ActivateResult × Db :=
  if license_key = "" ∨ hwid = "" then (some .invalidInput, db)
  else
    match dbGet license_key db with
    | none => (some .notFound, db)
    | some record =>
      match parseDate record.expiry with
      | none => (none, db)
      | some expiry =>
        if dateLt expiry today then (some .expired, db)
        else
          let hwids := record.activated_hwids
          let max_activations := record.max_activations.getD 1
          if hwid ∈ hwids then (some (.alreadyActive record.expiry record.customer), db)
          else if hwids.length ≥ max_activations then (some .limitReached, db)
          else
            let record' := { record with activated_hwids := hwids ++ [hwid] }
            (some (.activated record.expiry record.customer), dbPut license_key record' db)

/-- Outcome of the `/verify` handler.  `ok` carries the fields of the
HTTP 200 payload (lines 117–127); the list and `activations_used` are
read from the record *after* the possible auto-enrollment. -/
inductive VerifyResult where
  | invalidInput
  | notFound
  | expired
  | limitReached
  | ok (customer product version expiry : String)
       (activated_hwids : List String) (max_activations activations_used : Nat)
deriving DecidableEq, Repr

/-- The `/verify` handler (`verify`, lines 79–127): identical gate
structure to `activate`, but the limit check defaults a missing
`max_activations` to `2` (line 101) where `activate` defaults it to `1`
(line 61), and an unregistered under-limit hwid is silently enrolled. -/
def verify (today : Date) (db : Db) (license_key hwid : String) :
    Option VerifyResult × Db :=
  if license_key = "" ∨ hwid = "" then (some .invalidInput, db)
  else
    match dbGet license_key db with
    | none => (some .notFound, db)
    | some record =>
      match parseDate record.expiry with
      | none => (none, db)
      | some expiry =>
        if dateLt expiry today then (some .expired, db)
        else
          let hwids := record.activated_hwids
          let max_activations := record.max_activations.getD 2
          if hwid ∈ hwids then
            (some (.ok record.customer (record.product.getD "DTF & Screen Printing Manager Pro")
                (record.version.getD "1.0.0") record.expiry hwids
                (record.max_activations.getD 2) hwids.length), db)
          else if hwids.length ≥ max_activations then (some .limitReached, db)
          else
            let hwids' := hwids ++ [hwid]
            let record' := { record with activated_hwids := hwids' }
            (some (.ok record.customer (record.product.getD "DTF & Screen Printing Manager Pro")
                (record.version.getD "1.0.0") record.expiry hwids'
                (record.max_activations.getD 2) hwids'.length),
             dbPut license_key record' db)

/-- Outcome of the `/deactivate` handler.  `okRemoved` carries
`remaining_activations = record["max_activations"] - len(hwids)`
(line 155), an `Int` because the Python subtraction can go negative. -/
inductive DeactivateResult where
  | invalidInput
  | notFound
  | notActive
  | okRemoved (remaining : Int)
deriving DecidableEq, Repr

/-- The `/deactivate` handler (`deactivate`, lines 129–161).  On the
removal path the record is saved *before* `record["max_activations"]`
is read (line 155 uses mandatory access, not `.get`), so a record
without that field raises `KeyError` (outcome `none`) after the removal
has already been persisted. -/
def deactivate (db : Db) (license_key hwid : String) :
    Option DeactivateResult × Db :=
  if license_key = "" ∨ hwid = "" then (some .invalidInput, db)
  else
    match dbGet license_key db with
    | none => (some .notFound, db)
    | some record =>
      if hwid ∈ record.activated_hwids then
        let hwids' := record.activated_hwids.erase hwid
        let record' := { record with activated_hwids := hwids' }
        let db' := dbPut license_key record' db
        match record.max_activations with
        | none => (none, db')
        | some m => (some (.okRemoved ((m : Int) - hwids'.length)), db')
      else (some .notActive, db)

/-- `generate_license_key` (lines 10–13): joins the prefix, three random
4-character blocks and the suffix with dashes.  The randomly chosen
blocks are passed in explicitly. -/
def generate_license_key (parts : List String) (pre suf : String) : String :=
  pre ++ "-" ++ String.intercalate "-" parts ++ "-" ++ suf

/-- Outcome of the `/create_license` handler. -/
inductive CreateResult where
  | unauthorized
  | missingField
  | ok (license_key : String)
deriving DecidableEq, Repr

/-- The `/create_license` handler (`create_license`, lines 207–240).
The generated key is assigned with `db[license_key] = {...}` with no
membership check, no retry loop and no exhaustion outcome: a colliding
key silently replaces the existing record. -/
def create_license (admin_key customer expiry : String)
    (max_activations : Option Nat) (product : Option String)
    (parts : List String) (db : Db) : CreateResult × Db :=
  if ¬ admin_key = "Newo_Lomb_DTF_2025" then (.unauthorized, db)
  else if customer = "" ∨ expiry = "" then (.missingField, db)
  else
    let license_key := generate_license_key parts "DTF" "XYZ"
    let record : LicenseRecord :=
      { customer := customer
        expiry := expiry
        max_activations := some (max_activations.getD 1)
        activated_hwids := []
        product := some (product.getD "DTF & Screen Printing Manager Pro")
        version := none }
    (.ok license_key, dbPut license_key record db)

/-- Outcome of the `/delete_license` handler. -/
inductive DeleteResult where
  | unauthorized
  | missingKey
  | notFound
  | ok
deriving DecidableEq, Repr

/-- The `/delete_license` handler (`delete_license`, lines 242–282). -/
def delete_license (admin_key license_key : String) (db : Db) : DeleteResult × Db :=
  if ¬ admin_key = "Newo_Lomb_DTF_2025" then (.unauthorized, db)
  else if license_key = "" then (.missingKey, db)
  else
    match dbGet license_key db with
    | none => (.notFound, db)
    | some _ => (.ok, dbDelete license_key db)

/-!
`save_db` (lines 25–36) wraps the file write in `try/except Exception`
and only *prints* a failure, so a handler's response is computed and
returned identically whether or not the write succeeded; only the
persisted state differs.  The `*Step` wrappers make the write outcome
explicit: `writeOk = false` means every `save_db` call in the request
failed, leaving the file as it was.
-/

/-- `/activate` with an explicit `save_db` outcome. -/
def activateStep (writeOk : Bool) (today : Date) (db : Db) (k h : String) :
    Option ActivateResult × Db :=
  let r := activate today db k h
  (r.1, if writeOk then r.2 else db)

/-- `/verify` with an explicit `save_db` outcome. -/
def verifyStep (writeOk : Bool) (today : Date) (db : Db) (k h : String) :
    Option VerifyResult × Db :=
  let r := verify today db k h
  (r.1, if writeOk then r.2 else db)

/-- `/deactivate` with an explicit `save_db` outcome. -/
def deactivateStep (writeOk : Bool) (db : Db) (k h : String) :
    Option DeactivateResult × Db :=
  let r := deactivate db k h
  (r.1, if writeOk then r.2 else db)

/-- `/create_license` with an explicit `save_db` outcome. -/
def createStep (writeOk : Bool) (admin_key customer expiry : String)
    (max_activations : Option Nat) (product : Option String)
    (parts : List String) (db : Db) : CreateResult × Db :=
  let r := create_license admin_key customer expiry max_activations product parts db
  (r.1, if writeOk then r.2 else db)

/-- `/delete_license` with an explicit `save_db` outcome. -/
def deleteStep (writeOk : Bool) (admin_key license_key : String) (db : Db) :
    DeleteResult × Db :=
  let r := delete_license admin_key license_key db
  (r.1, if writeOk then r.2 else db)

/-- One request against the server, with the clock reading, the random
key blocks and the `save_db` outcome made explicit. -/
inductive Op where
  | act (today : Date) (license_key hwid : String) (writeOk : Bool)
  | ver (today : Date) (license_key hwid : String) (writeOk : Bool)
  | deact (license_key hwid : String) (writeOk : Bool)
  | create (admin_key customer expiry : String) (max_activations : Option Nat)
      (product : Option String) (parts : List String) (writeOk : Bool)
  | del (admin_key license_key : String) (writeOk : Bool)
deriving Repr

/-- The persisted database after one request. -/
def applyOp (db : Db) : Op → Db
  | .act today k h w => (activateStep w today db k h).2
  | .ver today k h w => (verifyStep w today db k h).2
  | .deact k h w => (deactivateStep w db k h).2
  | .create ak c e m p parts w => (createStep w ak c e m p parts db).2
  | .del ak k w => (deleteStep w ak k db).2

/-- The persisted database after a sequence of requests. -/
def runOps (db : Db) (ops : List Op) : Db :=
  ops.foldl applyOp db

/-- Per-record invariant of the spec (§3): no duplicate hardware
identities, and no more of them than the record's `max_activations`
(when the record carries that field). -/
def recInv (r : LicenseRecord) : Prop :=
  r.activated_hwids.Nodup ∧
    ∀ m, r.max_activations = some m → r.activated_hwids.length ≤ m

/-- Database-wide invariant: every stored record satisfies `recInv`. -/
def dbInv (db : Db) : Prop :=
  ∀ k r, dbGet k db = some r → recInv r

/-- Whether an `/activate` call executed its `save_db` line: exactly the
fresh-enrollment branch. -/
def activateWrote : Option ActivateResult → Bool
  | some (.activated _ _) => true
  | _ => false

/-- The four interleavings of two concurrent `/activate` requests at the
granularity of the source's file accesses: each request performs one
whole-file read (`load_db`) and at most one whole-file write
(`save_db`).  In the `race` schedules both requests read the initial
file before either writes; a later write replaces the whole file. -/
inductive Schedule where
  | seq12
  | seq21
  | race12
  | race21
deriving DecidableEq, Repr

/-- Run `activate` for `(k, h1)` (request 1) and `(k, h2)` (request 2)
under a given interleaving; returns both responses and the final
persisted database. -/
def runTwoActivates (today : Date) (db : Db) (k h1 h2 : String) :
    Schedule → (Option ActivateResult × Option ActivateResult × Db)
  | .seq12 =>
    let a := activate today db k h1
    let b := activate today a.2 k h2
    (a.1, b.1, b.2)
  | .seq21 =>
    let b := activate today db k h2
    let a := activate today b.2 k h1
    (a.1, b.1, a.2)
  | .race12 =>
    let a := activate today db k h1
    let b := activate today db k h2
    (a.1, b.1, if activateWrote b.1 then b.2 else if activateWrote a.1 then a.2 else db)
  | .race21 =>
    let a := activate today db k h1
    let b := activate today db k h2
    (a.1, b.1, if activateWrote a.1 then a.2 else if activateWrote b.1 then b.2 else db)

/-! ### Database lemmas -/

theorem dbGet_dbPut_self (k : String) (r : LicenseRecord) (db : Db) :
    dbGet k (dbPut k r db) = some r := by
  induction db with
  | nil => simp [dbGet, dbPut]
  | cons p t ih =>
    obtain ⟨k', r'⟩ := p
    by_cases h : k' = k <;> simp [dbGet, dbPut, h, ih]

theorem dbGet_dbPut_ne (hne : k' ≠ k) (r : LicenseRecord) (db : Db) :
    dbGet k' (dbPut k r db) = dbGet k' db := by
  have hne' : ¬ k = k' := fun h => hne h.symm
  induction db with
  | nil => simp [dbGet, dbPut, hne']
  | cons p t ih =>
    obtain ⟨k'', r''⟩ := p
    by_cases h : k'' = k
    · subst h
      simp [dbGet, dbPut, hne']
    · by_cases h' : k'' = k' <;> simp [dbGet, dbPut, h, h', hne, ih]

theorem dbGet_dbDelete_self (k : String) (db : Db) :
    dbGet k (dbDelete k db) = none := by
  induction db with
  | nil => simp [dbGet, dbDelete]
  | cons p t ih =>
    obtain ⟨k', r'⟩ := p
    by_cases h : k' = k <;> simp [dbGet, dbDelete, h, ih]

theorem dbGet_dbDelete_ne (hne : k' ≠ k) (db : Db) :
    dbGet k' (dbDelete k db) = dbGet k' db := by
  have hne' : ¬ k = k' := fun h => hne h.symm
  induction db with
  | nil => simp [dbDelete]
  | cons p t ih =>
    obtain ⟨k'', r''⟩ := p
    by_cases h : k'' = k
    · subst h
      simp [dbGet, dbDelete, hne', ih]
    · by_cases h' : k'' = k' <;> simp [dbGet, dbDelete, h, h', hne, ih]

theorem dbInv_dbPut (hdb : dbInv db) (hr : recInv r) : dbInv (dbPut k r db) := by
  intro k' r' hget
  by_cases hk : k' = k
  · subst hk
    rw [dbGet_dbPut_self] at hget
    cases hget
    exact hr
  · rw [dbGet_dbPut_ne hk] at hget
    exact hdb k' r' hget

theorem dbInv_dbDelete (hdb : dbInv db) : dbInv (dbDelete k db) := by
  intro k' r' hget
  by_cases hk : k' = k
  · subst hk
    rw [dbGet_dbDelete_self] at hget
    cases hget
  · rw [dbGet_dbDelete_ne hk] at hget
    exact hdb k' r' hget

/-! ### Shapes of the state each handler persists -/

/-- `/activate` either leaves the database untouched or appends a fresh
hwid to a record it found, and only when the record had a free slot
against `max_activations` (missing field read as `1`). -/
theorem activate_db_cases (today : Date) (db : Db) (k h : String) :
    (activate today db k h).2 = db ∨
    ∃ r, dbGet k db = some r ∧ h ∉ r.activated_hwids ∧
      r.activated_hwids.length < r.max_activations.getD 1 ∧
      (activate today db k h).2 =
        dbPut k { r with activated_hwids := r.activated_hwids ++ [h] } db := by
  simp only [activate]
  split
  · exact Or.inl rfl
  · split
    · exact Or.inl rfl
    · next record heq =>
      split
      · exact Or.inl rfl
      · split
        · exact Or.inl rfl
        · split
          · exact Or.inl rfl
          · split
            · exact Or.inl rfl
            · next hmem hlen =>
              exact Or.inr ⟨record, heq, hmem, Nat.lt_of_not_le hlen, rfl⟩

/-- `/verify` either leaves the database untouched or appends a fresh
hwid to a record it found, and only when the record had a free slot
against `max_activations` (missing field read as `2`). -/
theorem verify_db_cases (today : Date) (db : Db) (k h : String) :
    (verify today db k h).2 = db ∨
    ∃ r, dbGet k db = some r ∧ h ∉ r.activated_hwids ∧
      r.activated_hwids.length < r.max_activations.getD 2 ∧
      (verify today db k h).2 =
        dbPut k { r with activated_hwids := r.activated_hwids ++ [h] } db := by
  simp only [verify]
  split
  · exact Or.inl rfl
  · split
    · exact Or.inl rfl
    · next record heq =>
      split
      · exact Or.inl rfl
      · split
        · exact Or.inl rfl
        · split
          · exact Or.inl rfl
          · split
            · exact Or.inl rfl
            · next hmem hlen =>
              exact Or.inr ⟨record, heq, hmem, Nat.lt_of_not_le hlen, rfl⟩

/-- `/deactivate` either leaves the database untouched or erases a
present hwid from a record it found. -/
theorem deactivate_db_cases (db : Db) (k h : String) :
    (deactivate db k h).2 = db ∨
    ∃ r, dbGet k db = some r ∧ h ∈ r.activated_hwids ∧
      (deactivate db k h).2 =
        dbPut k { r with activated_hwids := r.activated_hwids.erase h } db := by
  simp only [deactivate]
  split
  · exact Or.inl rfl
  · split
    · exact Or.inl rfl
    · next record heq =>
      split
      · next hmem =>
        split
        · exact Or.inr ⟨record, heq, hmem, rfl⟩
        · exact Or.inr ⟨record, heq, hmem, rfl⟩
      · exact Or.inl rfl

/-- `/create_license` either leaves the database untouched or stores a
fresh record with an empty hwid list and `max_activations` present. -/
theorem create_db_cases (ak c e : String) (ma : Option Nat) (p : Option String)
    (parts : List String) (db : Db) :
    (create_license ak c e ma p parts db).2 = db ∨
    ∃ key m, (create_license ak c e ma p parts db).2 =
      dbPut key { customer := c, expiry := e, max_activations := some m,
                  activated_hwids := [], product := some (p.getD "DTF & Screen Printing Manager Pro"),
                  version := none } db := by
  simp only [create_license]
  split
  · exact Or.inl rfl
  · split
    · exact Or.inl rfl
    · exact Or.inr ⟨_, _, rfl⟩

/-- `/delete_license` either leaves the database untouched or removes one key. -/
theorem delete_db_cases (ak k : String) (db : Db) :
    (delete_license ak k db).2 = db ∨
    (delete_license ak k db).2 = dbDelete k db := by
  simp only [delete_license]
  split
  · exact Or.inl rfl
  · split
    · exact Or.inl rfl
    · split
      · exact Or.inl rfl
      · exact Or.inr rfl

/-! ### The record invariant is preserved -/

theorem recInv_append (r : LicenseRecord) (h : String) (d : Nat) (hr : recInv r)
    (hmem : h ∉ r.activated_hwids)
    (hlen : r.activated_hwids.length < r.max_activations.getD d) :
    recInv { r with activated_hwids := r.activated_hwids ++ [h] } := by
  obtain ⟨hnd, hle⟩ := hr
  constructor
  · simp [List.nodup_append, hnd, hmem]
  · intro m hm
    rw [hm] at hlen
    simp only [Option.getD_some] at hlen
    simpa using hlen

theorem recInv_erase (r : LicenseRecord) (h : String) (hr : recInv r) :
    recInv { r with activated_hwids := r.activated_hwids.erase h } := by
  obtain ⟨hnd, hle⟩ := hr
  constructor
  · exact hnd.sublist (r.activated_hwids.erase_sublist h)
  · intro m hm
    exact le_trans ((r.activated_hwids.erase_sublist h).length_le) (hle m hm)

theorem dbInv_applyOp (db : Db) (op : Op) (hdb : dbInv db) : dbInv (applyOp db op) := by
  cases op with
  | act today k h w =>
    simp only [applyOp, activateStep]
    cases w
    · simpa using hdb
    · simp only [if_true]
      rcases activate_db_cases today db k h with heq | ⟨r, hget, hmem, hlen, heq⟩
      · rw [heq]; exact hdb
      · rw [heq]
        exact dbInv_dbPut hdb (recInv_append r h 1 (hdb k r hget) hmem hlen)
  | ver today k h w =>
    simp only [applyOp, verifyStep]
    cases w
    · simpa using hdb
    · simp only [if_true]
      rcases verify_db_cases today db k h with heq | ⟨r, hget, hmem, hlen, heq⟩
      · rw [heq]; exact hdb
      · rw [heq]
        exact dbInv_dbPut hdb (recInv_append r h 2 (hdb k r hget) hmem hlen)
  | deact k h w =>
    simp only [applyOp, deactivateStep]
    cases w
    · simpa using hdb
    · simp only [if_true]
      rcases deactivate_db_cases db k h with heq | ⟨r, hget, hmem, heq⟩
      · rw [heq]; exact hdb
      · rw [heq]
        exact dbInv_dbPut hdb (recInv_erase r h (hdb k r hget))
  | create ak c e m p parts w =>
    simp only [applyOp, createStep]
    cases w
    · simpa using hdb
    · simp only [if_true]
      rcases create_db_cases ak c e m p parts db with heq | ⟨key, m', heq⟩
      · rw [heq]; exact hdb
      · rw [heq]
        refine dbInv_dbPut hdb ⟨List.nodup_nil, ?_⟩
        intro m'' hm''
        simp
  | del ak k w =>
    simp only [applyOp, deleteStep]
    cases w
    · simpa using hdb
    · simp only [if_true]
      rcases delete_db_cases ak k db with heq | heq
      · rw [heq]; exact hdb
      · rw [heq]; exact dbInv_dbDelete hdb

/-! ### Claims -/

/-- C1: for every license record and every sequence of activate, verify,
deactivate, create and delete requests (under any pattern of `save_db`
failures), a stored record's `activated_hwids` never contains the same
hardware identity twice and its length never exceeds the record's
`max_activations`, provided every record of the starting database
already satisfied that invariant. -/
theorem C1_slot_invariant (db : Db) (ops : List Op) (hdb : dbInv db) :
    dbInv (runOps db ops) := by
  induction ops generalizing db with
  | nil => exact hdb
  | cons op t ih => exact ih (applyOp db op) (dbInv_applyOp db op hdb)

theorem C1_slot_invariant_witness :
    dbInv (runOps []
      [Op.create "Newo_Lomb_DTF_2025" "Alice" "2099-01-01" (some 2) none
        ["AAAA", "BBBB", "CCCC"] true,
       Op.act ⟨2025, 1, 1⟩ "DTF-AAAA-BBBB-CCCC-XYZ" "hw1" true,
       Op.ver ⟨2025, 1, 1⟩ "DTF-AAAA-BBBB-CCCC-XYZ" "hw2" true,
       Op.act ⟨2025, 1, 1⟩ "DTF-AAAA-BBBB-CCCC-XYZ" "hw3" false,
       Op.deact "DTF-AAAA-BBBB-CCCC-XYZ" "hw1" true]) :=
  C1_slot_invariant [] _ (fun _ _ h => Option.noConfusion h)

/-- C2: `/activate` applies its checks in order — empty inputs, unknown
key, expiry strictly before today, hwid already enrolled, slot limit —
and otherwise appends the hwid, persists, and answers with the record's
expiry and customer. -/
theorem C2_activate_check_order (today : Date) (db : Db) (k h : String) :
    ((k = "" ∨ h = "") → activate today db k h = (some .invalidInput, db)) ∧
    (k ≠ "" → h ≠ "" → dbGet k db = none →
      activate today db k h = (some .notFound, db)) ∧
    (∀ r d, k ≠ "" → h ≠ "" → dbGet k db = some r → parseDate r.expiry = some d →
      dateLt d today = true → activate today db k h = (some .expired, db)) ∧
    (∀ r d, k ≠ "" → h ≠ "" → dbGet k db = some r → parseDate r.expiry = some d →
      dateLt d today = false → h ∈ r.activated_hwids →
      activate today db k h = (some (.alreadyActive r.expiry r.customer), db)) ∧
    (∀ r d, k ≠ "" → h ≠ "" → dbGet k db = some r → parseDate r.expiry = some d →
      dateLt d today = false → h ∉ r.activated_hwids →
      r.max_activations.getD 1 ≤ r.activated_hwids.length →
      activate today db k h = (some .limitReached, db)) ∧
    (∀ r d, k ≠ "" → h ≠ "" → dbGet k db = some r → parseDate r.expiry = some d →
      dateLt d today = false → h ∉ r.activated_hwids →
      r.activated_hwids.length < r.max_activations.getD 1 →
      activate today db k h = (some (.activated r.expiry r.customer),
        dbPut k { r with activated_hwids := r.activated_hwids ++ [h] } db)) := by
  refine ⟨?_, ?_, ?_, ?_, ?_, ?_⟩
  · intro hk
    simp only [activate]
    rw [if_pos hk]
  · intro hk hh hget
    simp [activate, hk, hh, hget]
  · intro r d hk hh hget hparse hexp
    simp [activate, hk, hh, hget, hparse, hexp]
  · intro r d hk hh hget hparse hexp hmem
    simp [activate, hk, hh, hget, hparse, hexp, hmem]
  · intro r d hk hh hget hparse hexp hmem hge
    simp [activate, hk, hh, hget, hparse, hexp, hmem, hge]
  · intro r d hk hh hget hparse hexp hmem hlt
    simp [activate, hk, hh, hget, hparse, hexp, hmem, Nat.not_le.mpr hlt]

theorem C2_activate_check_order_witness :
    activate ⟨2025, 6, 15⟩ [("L", ⟨"Alice", "2099-01-01", some 1, [], none, none⟩)] "L" "A"
      = (some (.activated "2099-01-01" "Alice"),
         [("L", ⟨"Alice", "2099-01-01", some 1, ["A"], none, none⟩)]) := by
  have h := (C2_activate_check_order ⟨2025, 6, 15⟩
    [("L", ⟨"Alice", "2099-01-01", some 1, [], none, none⟩)] "L" "A").2.2.2.2.2
      ⟨"Alice", "2099-01-01", some 1, [], none, none⟩ ⟨2099, 1, 1⟩
      (by decide) (by decide) (by decide) (by decide) (by decide) (by decide) (by decide)
  simpa using h

/-- C3: under the interleaving in which both `/activate` requests run
`load_db` before either runs `save_db`, two concurrent activations with
distinct hwids on an empty `max_activations = 1` record BOTH answer
`Activated` (and one write is lost): the code has no per-key critical
section around its read-modify-write, so the claimed
"exactly one `Activated`, the other `LimitReached` under every
interleaving" fails. -/
theorem C3_race_both_activated :
    runTwoActivates ⟨2025, 1, 1⟩
      [("L", ⟨"Alice", "2099-01-01", some 1, [], none, none⟩)] "L" "A" "B" .race12
    = (some (.activated "2099-01-01" "Alice"),
       some (.activated "2099-01-01" "Alice"),
       [("L", ⟨"Alice", "2099-01-01", some 1, ["B"], none, none⟩)]) := by decide

/-- C4: on an unexpired record with a free slot and an unenrolled hwid,
activating twice with the same key and hwid yields `Activated` then
`AlreadyActive`, and the database the first call persists is exactly the
database after the second call (the second call mutates nothing). -/
theorem C4_activate_idempotent (today : Date) (db : Db) (k h : String)
    (r : LicenseRecord) (d : Date)
    (hk : k ≠ "") (hh : h ≠ "") (hget : dbGet k db = some r)
    (hparse : parseDate r.expiry = some d) (hexp : dateLt d today = false)
    (hmem : h ∉ r.activated_hwids)
    (hlen : r.activated_hwids.length < r.max_activations.getD 1) :
    ∃ db', activate today db k h = (some (.activated r.expiry r.customer), db') ∧
      activate today db' k h = (some (.alreadyActive r.expiry r.customer), db') := by
  refine ⟨dbPut k { r with activated_hwids := r.activated_hwids ++ [h] } db, ?_, ?_⟩
  · simp [activate, hk, hh, hget, hparse, hexp, hmem, Nat.not_le.mpr hlen]
  · have hget' := dbGet_dbPut_self k { r with activated_hwids := r.activated_hwids ++ [h] } db
    simp [activate, hk, hh, hget', hparse, hexp]

theorem C4_activate_idempotent_witness :
    ∃ db', activate ⟨2025, 6, 15⟩ [("L", ⟨"Alice", "2099-01-01", some 1, [], none, none⟩)] "L" "A"
        = (some (.activated "2099-01-01" "Alice"), db') ∧
      activate ⟨2025, 6, 15⟩ db' "L" "A" = (some (.alreadyActive "2099-01-01" "Alice"), db') :=
  C4_activate_idempotent ⟨2025, 6, 15⟩ [("L", ⟨"Alice", "2099-01-01", some 1, [], none, none⟩)]
    "L" "A" ⟨"Alice", "2099-01-01", some 1, [], none, none⟩ ⟨2099, 1, 1⟩
    (by decide) (by decide) (by decide) (by decide) (by decide) (by decide) (by decide)

/-- C5 (amended): on every database whose record under the requested key
carries an explicit `max_activations` field, `/verify` makes the same
slot-allocation decision as `/activate`: it persists the identical
database (enrolling exactly when `/activate` would, against the same
`max_activations` value) and classifies `NotFound`, `Expired`,
`LimitReached` and the date-parse exception under exactly the same
conditions. -/
theorem C5_verify_matches_activate (today : Date) (db : Db) (k h : String)
    (hmax : ∀ r, dbGet k db = some r → ∃ m, r.max_activations = some m) :
    (verify today db k h).2 = (activate today db k h).2 ∧
    ((verify today db k h).1 = some .notFound ↔ (activate today db k h).1 = some .notFound) ∧
    ((verify today db k h).1 = some .expired ↔ (activate today db k h).1 = some .expired) ∧
    ((verify today db k h).1 = some .limitReached ↔
      (activate today db k h).1 = some .limitReached) ∧
    ((verify today db k h).1 = none ↔ (activate today db k h).1 = none) := by
  by_cases hk : k = "" ∨ h = ""
  · simp [activate, verify, hk]
  · rw [not_or] at hk
    obtain ⟨hk1, hk2⟩ := hk
    cases hget : dbGet k db with
    | none => simp [activate, verify, hk1, hk2, hget]
    | some r =>
      obtain ⟨m, hm⟩ := hmax r hget
      cases hparse : parseDate r.expiry with
      | none => simp [activate, verify, hk1, hk2, hget, hparse]
      | some d =>
        cases hexp : dateLt d today with
        | true => simp [activate, verify, hk1, hk2, hget, hparse, hexp]
        | false =>
          by_cases hmem : h ∈ r.activated_hwids
          · simp [activate, verify, hk1, hk2, hget, hparse, hexp, hmem]
          · by_cases hge : m ≤ r.activated_hwids.length
            · simp [activate, verify, hk1, hk2, hget, hparse, hexp, hmem, hm, hge]
            · simp [activate, verify, hk1, hk2, hget, hparse, hexp, hmem, hm, hge]

theorem C5_verify_matches_activate_witness :
    ((verify ⟨2025, 1, 1⟩ [("L", ⟨"Alice", "2099-01-01", some 1, ["A"], none, none⟩)] "L" "B").2
      = (activate ⟨2025, 1, 1⟩
          [("L", ⟨"Alice", "2099-01-01", some 1, ["A"], none, none⟩)] "L" "B").2) ∧
    ((verify ⟨2025, 1, 1⟩ [("L", ⟨"Alice", "2099-01-01", some 1, ["A"], none, none⟩)] "L" "B").1
        = some .limitReached ↔
      (activate ⟨2025, 1, 1⟩
          [("L", ⟨"Alice", "2099-01-01", some 1, ["A"], none, none⟩)] "L" "B").1
        = some .limitReached) := by
  have h := C5_verify_matches_activate ⟨2025, 1, 1⟩
    [("L", ⟨"Alice", "2099-01-01", some 1, ["A"], none, none⟩)] "L" "B"
    (by intro r hr; simp [dbGet] at hr; subst hr; exact ⟨1, rfl⟩)
  exact ⟨h.1, h.2.2.2.1⟩

/-- C5 counterexample: the claim fails as stated, over all records.  On
a record that lacks the `max_activations` field, `/activate` reads the
field with default `1` (line 61) but `/verify` reads it with default
`2` (line 101): with one hwid enrolled, `/activate` answers
`LimitReached` without mutating, while `/verify` silently enrolls the
new hwid — the two operations take different slot-allocation decisions
on the same state. -/
theorem C5_defaults_differ :
    (activate ⟨2025, 1, 1⟩ [("L", ⟨"Alice", "2099-01-01", none, ["A"], none, none⟩)] "L" "B"
      = (some .limitReached, [("L", ⟨"Alice", "2099-01-01", none, ["A"], none, none⟩)])) ∧
    (verify ⟨2025, 1, 1⟩ [("L", ⟨"Alice", "2099-01-01", none, ["A"], none, none⟩)] "L" "B").2
      = [("L", ⟨"Alice", "2099-01-01", none, ["A", "B"], none, none⟩)] := by decide

/-- C6: on a record whose expiry date parses to a date strictly before
today, `/activate` and `/verify` both answer `Expired` and persist the
database unchanged — with no hypothesis on how many slots are free or
on whether the hwid is already enrolled. -/
theorem C6_expired_rejects (today : Date) (db : Db) (k h : String)
    (r : LicenseRecord) (d : Date)
    (hk : k ≠ "") (hh : h ≠ "") (hget : dbGet k db = some r)
    (hparse : parseDate r.expiry = some d) (hexp : dateLt d today = true) :
    activate today db k h = (some .expired, db) ∧
    verify today db k h = (some .expired, db) := by
  constructor
  · simp [activate, hk, hh, hget, hparse, hexp]
  · simp [verify, hk, hh, hget, hparse, hexp]

theorem C6_expired_rejects_witness :
    activate ⟨2025, 6, 15⟩ [("L", ⟨"Alice", "2025-06-14", some 5, ["A"], none, none⟩)] "L" "B"
      = (some .expired, [("L", ⟨"Alice", "2025-06-14", some 5, ["A"], none, none⟩)]) ∧
    verify ⟨2025, 6, 15⟩ [("L", ⟨"Alice", "2025-06-14", some 5, ["A"], none, none⟩)] "L" "B"
      = (some .expired, [("L", ⟨"Alice", "2025-06-14", some 5, ["A"], none, none⟩)]) :=
  C6_expired_rejects ⟨2025, 6, 15⟩ [("L", ⟨"Alice", "2025-06-14", some 5, ["A"], none, none⟩)]
    "L" "B" ⟨"Alice", "2025-06-14", some 5, ["A"], none, none⟩ ⟨2025, 6, 14⟩
    (by decide) (by decide) (by decide) (by decide) (by decide)

/-- C7 (amended): on every existing record that carries the
`max_activations` field, `/deactivate` removes a present hwid, persists,
and reports `remaining = max_activations - len(activated_hwids)`
computed after the removal; an absent hwid yields `NotActive` with the
database unchanged.  (On a record missing the field the success path
instead raises `KeyError` — see the counterexample.) -/
theorem C7_deactivate (db : Db) (k h : String) (r : LicenseRecord) (m : Nat)
    (hk : k ≠ "") (hh : h ≠ "") (hget : dbGet k db = some r)
    (hmax : r.max_activations = some m) :
    (h ∈ r.activated_hwids →
      deactivate db k h
        = (some (.okRemoved ((m : Int) - (r.activated_hwids.erase h).length)),
           dbPut k { r with activated_hwids := r.activated_hwids.erase h } db)) ∧
    (h ∉ r.activated_hwids → deactivate db k h = (some .notActive, db)) := by
  constructor <;> intro hmem
  · simp [deactivate, hk, hh, hget, hmax, hmem]
  · simp [deactivate, hk, hh, hget, hmem]

theorem C7_deactivate_witness :
    deactivate [("L", ⟨"Alice", "2099-01-01", some 3, ["A", "B"], none, none⟩)] "L" "A"
      = (some (.okRemoved ((3 : Int) - (["A", "B"].erase "A").length)),
         dbPut "L" ⟨"Alice", "2099-01-01", some 3, ["A", "B"].erase "A", none, none⟩
           [("L", ⟨"Alice", "2099-01-01", some 3, ["A", "B"], none, none⟩)]) :=
  (C7_deactivate [("L", ⟨"Alice", "2099-01-01", some 3, ["A", "B"], none, none⟩)] "L" "A"
    ⟨"Alice", "2099-01-01", some 3, ["A", "B"], none, none⟩ 3
    (by decide) (by decide) (by decide) (by decide)).1 (by decide)

/-- C7 counterexample: the claim fails as stated, over all existing
records.  On a record that lacks the `max_activations` field, the
success path of `/deactivate` persists the removal and then raises
`KeyError` at `record["max_activations"]` (line 155, mandatory access)
instead of returning the claimed success payload. -/
theorem C7_missing_max_raises :
    deactivate [("L", ⟨"Alice", "2099-01-01", none, ["A"], none, none⟩)] "L" "A"
      = (none, [("L", ⟨"Alice", "2099-01-01", none, [], none, none⟩)]) := by decide

/-- C8: `/create_license` performs no collision check at all — it
generates the key once, never consults the store for it, and commits
with plain assignment.  When the generated key already names a record,
that record (its enrolled hwids included) is silently overwritten and
the handler still answers success; no retry and no `KeyspaceExhausted`
outcome exist in the code. -/
theorem C8_collision_overwrites :
    create_license "Newo_Lomb_DTF_2025" "Bob" "2030-01-01" none none
      ["AAAA", "BBBB", "CCCC"]
      [("DTF-AAAA-BBBB-CCCC-XYZ", ⟨"Alice", "2099-01-01", some 1, ["A"], none, none⟩)]
    = (.ok "DTF-AAAA-BBBB-CCCC-XYZ",
       [("DTF-AAAA-BBBB-CCCC-XYZ",
         ⟨"Bob", "2030-01-01", some 1, [], some "DTF & Screen Printing Manager Pro",
          none⟩)]) := by decide

/-- C9: `save_db` (lines 30–36) catches every exception and only prints
it, so when the file write fails (`writeOk = false`) `/activate` still
answers `Activated` while the persisted database is unchanged — the
failure is never surfaced to the caller, contrary to the claimed
`StoreUnavailable` error. -/
theorem C9_write_failure_ignored :
    activateStep false ⟨2025, 1, 1⟩
      [("L", ⟨"Alice", "2099-01-01", some 1, [], none, none⟩)] "L" "A"
    = (some (.activated "2099-01-01" "Alice"),
       [("L", ⟨"Alice", "2099-01-01", some 1, [], none, none⟩)]) := by decide

/-- C10: on an existing record whose `expiry` string `strptime` cannot
parse as `%Y-%m-%d`, `/activate` and `/verify` raise the `ValueError`
unhandled (outcome `none`, no enumerated result, database untouched):
the parse at lines 56 and 93 is unguarded. -/
theorem C10_malformed_expiry_raises (today : Date) (db : Db) (k h : String)
    (r : LicenseRecord)
    (hk : k ≠ "") (hh : h ≠ "") (hget : dbGet k db = some r)
    (hparse : parseDate r.expiry = none) :
    activate today db k h = (none, db) ∧ verify today db k h = (none, db) := by
  constructor
  · simp [activate, hk, hh, hget, hparse]
  · simp [verify, hk, hh, hget, hparse]

theorem C10_malformed_expiry_raises_witness :
    activate ⟨2025, 1, 1⟩ [("L", ⟨"Alice", "soon", some 1, [], none, none⟩)] "L" "A"
      = (none, [("L", ⟨"Alice", "soon", some 1, [], none, none⟩)]) ∧
    verify ⟨2025, 1, 1⟩ [("L", ⟨"Alice", "soon", some 1, [], none, none⟩)] "L" "A"
      = (none, [("L", ⟨"Alice", "soon", some 1, [], none, none⟩)]) :=
  C10_malformed_expiry_raises ⟨2025, 1, 1⟩ [("L", ⟨"Alice", "soon", some 1, [], none, none⟩)]
    "L" "A" ⟨"Alice", "soon", some 1, [], none, none⟩
    (by decide) (by decide) (by decide) (by decide)

